import Mathlib

/-!
Shallow embedding of the Hikaru-FDetector client-side media lifecycle core:
the `MediaDatabase` IndexedDB wrapper (`utils/indexedDb.ts`), the
`useMediaCapture` hook (`loadPersistedMedia`, `addMedia`, `removeMedia`,
`clearAllMedia`, `createMediaFromBlob` in `hooks/useMediaCapture.ts`) and the
response-validation filter of `FruitDetector.detectFruits`
(`utils/fruitDetector.ts`).

Asynchronous store operations are modelled by passing their settlement outcome
(success or failure) as an explicit boolean or `Except` parameter; the order in
which the code observes those settlements is captured by explicit event traces.
Browser-allocated object URLs (`URL.createObjectURL`) are modelled by an
explicit allocator function or by an `Option String` outcome where the source
wraps the call in `try`/`catch`.
-/

/-- Camera capture mode (the `CameraMode` union type `'photo' | 'video'`). -/
inductive CameraMode
  | photo
  | video
deriving DecidableEq, Repr

/-- An opaque binary payload (a browser `Blob`), modelled as its byte list. -/
structure MediaBlob where
  data : List Nat
deriving DecidableEq, Repr

/-- `StoredMediaData` from `utils/indexedDb.ts`: the durable record kept in the
IndexedDB object store `media` (keyPath `id`). -/
structure StoredMediaData where
  id : String
  type : CameraMode
  blob : MediaBlob
  timestamp : Nat
  filename : String
deriving DecidableEq, Repr

/-- `CapturedMedia` from `types/media`: the in-memory display handle held in
the hook's `capturedMedia` array.  `url` is the transient object URL and
`indexedDbId` records whether the item has a durable mirror. -/
structure CapturedMedia where
  id : String
  type : CameraMode
  url : String
  blob : MediaBlob
  timestamp : Nat
  filename : String
  indexedDbId : Option String := none
deriving DecidableEq, Repr

/-- The IndexedDB object store `media`: a sequence of records.  The keyPath
`id` makes ids unique; that invariant appears as a `Nodup` hypothesis where a
theorem needs it. -/
abbrev MediaStore := List StoredMediaData

/-- `store.put(mediaData)` on the object store with keyPath `id`: an upsert by
`id`, last write wins. -/
def putStore (s : MediaStore) (r : StoredMediaData) : MediaStore :=
  if s.any (fun e => e.id == r.id) then
    s.map (fun e => if e.id == r.id then r else e)
  else
    s ++ [r]

/-- `MediaDatabase.storeMedia(mediaData)`: issues the `put` and resolves with
`mediaData.id`. -/
def storeMedia (s : MediaStore) (r : StoredMediaData) : MediaStore × String :=
  (putStore s r, r.id)

/-- `store.delete(id)`: removes the entry with that key, a no-op if absent. -/
def deleteStore (s : MediaStore) (id : String) : MediaStore :=
  s.filter (fun e => e.id != id)

/-- `store.clear()`: removes all entries. -/
def clearStore (_s : MediaStore) : MediaStore := []

/-- The `useMediaCapture` hook state: the `capturedMedia` collection plus the
`isCapturing` and `isLoading` flags. -/
structure ManagerState where
  capturedMedia : List CapturedMedia
  isCapturing : Bool
  isLoading : Bool
deriving DecidableEq, Repr

/-- The hook's initial state: `useState<CapturedMedia[]>([])`,
`useState(false)`, `useState(true)`. -/
def initialState : ManagerState :=
  { capturedMedia := [], isCapturing := false, isLoading := true }

/-- `url.startsWith('blob:')`, written out on the character list. -/
def isBlobUrl (s : String) : Bool :=
  match s.data with
  | 'b' :: 'l' :: 'o' :: 'b' :: ':' :: _ => true
  | _ => false

/-- The restore comparator `(a, b) => b.timestamp - a.timestamp`: `a` is
ordered no later than `b` exactly when `b.timestamp ≤ a.timestamp`
(newest first). -/
def newestFirst (a b : CapturedMedia) : Prop :=
  b.timestamp ≤ a.timestamp

instance : DecidableRel newestFirst := fun a b =>
  inferInstanceAs (Decidable (b.timestamp ≤ a.timestamp))

instance : IsTotal CapturedMedia newestFirst :=
  ⟨fun a b => Nat.le_total b.timestamp a.timestamp⟩

instance : IsTrans CapturedMedia newestFirst :=
  ⟨fun _ _ _ hab hbc => Nat.le_trans hbc hab⟩

/-- Rehydrating one stored record into a `CapturedMedia` handle — the
`storedMedia.map` body inside `loadPersistedMedia`.  `mkUrl` stands for the
fresh object URL produced by `URL.createObjectURL(stored.blob)`. -/
def restoreHandle (mkUrl : StoredMediaData → String) (stored : StoredMediaData) :
    CapturedMedia :=
  { id := stored.id
    type := stored.type
    url := mkUrl stored
    blob := stored.blob
    timestamp := stored.timestamp
    filename := stored.filename
    indexedDbId := some stored.id }

/-- `loadPersistedMedia` from `useMediaCapture`: awaits
`mediaDatabase.getAllMedia()` (outcome passed as `getAllResult`), on success
maps the records to handles, sorts newest first and replaces the collection
(only when at least one record was read); any failure is caught and logged;
the `finally` block clears `isLoading` on every path.  The failure is not
re-thrown: the function is total on both outcomes. -/
def loadPersistedMedia (mkUrl : StoredMediaData → String)
    (getAllResult : Except String (List StoredMediaData))
    (st : ManagerState) : ManagerState :=
  match getAllResult with
  | .error _ => { st with isLoading := false }
  | .ok stored =>
    if stored.length > 0 then
      { st with
        capturedMedia := List.insertionSort newestFirst (stored.map (restoreHandle mkUrl)),
        isLoading := false }
    else
      { st with isLoading := false }

/-- The observable events inside `addMedia`: the store `put` being issued, the
`put` settling (fulfilled or rejected), and the prepend of the record to the
`capturedMedia` collection, in the order the code performs them. -/
inductive AddEvent
  | putStarted
  | putSettled (ok : Bool)
  | prepended
deriving DecidableEq, Repr

/-- `addMedia(media)`: builds `storedData`, awaits
`mediaDatabase.storeMedia(storedData)` (outcome `putOk`); on success prepends
`mediaWithId` (the record with `indexedDbId` set to the resolved id), on
failure the `catch` block prepends the plain record, memory-only.  The third
component is the event trace in source order; no error escapes on either
path. -/
def addMedia (putOk : Bool) (media : CapturedMedia) (st : ManagerState)
    (store : MediaStore) : ManagerState × MediaStore × List AddEvent :=
  let storedData : StoredMediaData :=
    { id := media.id, type := media.type, blob := media.blob,
      timestamp := media.timestamp, filename := media.filename }
  if putOk then
    let res := storeMedia store storedData
    let mediaWithId : CapturedMedia := { media with indexedDbId := some res.2 }
    ({ st with capturedMedia := mediaWithId :: st.capturedMedia }, res.1,
      [AddEvent.putStarted, AddEvent.putSettled true, AddEvent.prepended])
  else
    ({ st with capturedMedia := media :: st.capturedMedia }, store,
      [AddEvent.putStarted, AddEvent.putSettled false, AddEvent.prepended])

/-- `removeMedia(id)`: inside the state update, `prev.find(m => m.id === id)`
locates the item; if found, its object URL is revoked when it starts with
`blob:` and a fire-and-forget `deleteMedia` is issued when `indexedDbId` is
set (its failure only logged); the new collection is
`prev.filter(m => m.id !== id)` on every path.  Returns the new state, the
revoked URLs and the delete requests issued. -/
def removeMedia (id : String) (st : ManagerState) :
    ManagerState × List String × List String :=
  match st.capturedMedia.find? (fun m => m.id == id) with
  | some mediaToRemove =>
    let revoked := if isBlobUrl mediaToRemove.url then [mediaToRemove.url] else []
    let deletes :=
      match mediaToRemove.indexedDbId with
      | some dbId => [dbId]
      | none => []
    ({ st with capturedMedia := st.capturedMedia.filter (fun m => m.id != id) },
      revoked, deletes)
  | none =>
    ({ st with capturedMedia := st.capturedMedia.filter (fun m => m.id != id) },
      [], [])

/-- `clearAllMedia()`: awaits `mediaDatabase.clearAllMedia()` inside
`try`/`catch` (outcome `clearOk`, failure caught and logged), then — on both
outcomes — revokes every `blob:` object URL of the current collection and sets
the collection to `[]`.  Returns the new state, the resulting store and the
revoked URLs. -/
def clearAllMedia (clearOk : Bool) (st : ManagerState) (store : MediaStore) :
    ManagerState × MediaStore × List String :=
  let store' := if clearOk then clearStore store else store
  let revoked := (st.capturedMedia.filter (fun m => isBlobUrl m.url)).map
    (fun m => m.url)
  ({ st with capturedMedia := [] }, store', revoked)

/-- Two-digit zero padding of a date/time component. -/
def pad2 (n : Nat) : String :=
  if n < 10 then "0" ++ toString n else toString n

/-- Four-digit zero padding of the year. -/
def pad4 (n : Nat) : String :=
  if n < 10 then "000" ++ toString n
  else if n < 100 then "00" ++ toString n
  else if n < 1000 then "0" ++ toString n
  else toString n

/-- Proleptic Gregorian civil date (year, month, day) from days since the Unix
epoch — the calendar conversion performed by `Date.prototype.toISOString`. -/
def civilFromDays (days : Nat) : Nat × Nat × Nat :=
  let z := days + 719468
  let era := z / 146097
  let doe := z % 146097
  let yoe := (doe - doe / 1460 + doe / 36524 - doe / 146096) / 365
  let y := yoe + era * 400
  let doy := doe - (365 * yoe + yoe / 4 - yoe / 100)
  let mp := (5 * doy + 2) / 153
  let d := doy - (153 * mp + 2) / 5 + 1
  let m := if mp < 10 then mp + 3 else mp - 9
  (if m ≤ 2 then y + 1 else y, m, d)

/-- `new Date(ms).toISOString().slice(0, 19)`: the `YYYY-MM-DDTHH:MM:SS` part
of the UTC ISO timestamp for a millisecond Unix time. -/
def toISOSliced (ms : Nat) : String :=
  let totalSec := ms / 1000
  let dateParts := civilFromDays (totalSec / 86400)
  let secOfDay := totalSec % 86400
  pad4 dateParts.1 ++ "-" ++ pad2 dateParts.2.1 ++ "-" ++ pad2 dateParts.2.2 ++
    "T" ++ pad2 (secOfDay / 3600) ++ ":" ++ pad2 (secOfDay % 3600 / 60) ++
    ":" ++ pad2 (secOfDay % 60)

/-- `.replace(/[:.]/g, '-')`: every colon and dot becomes a dash. -/
def replaceColonDot (s : String) : String :=
  ⟨s.data.map (fun c => if c = ':' ∨ c = '.' then '-' else c)⟩

/-- The string form of a `CameraMode`, as interpolated into ids and
filenames. -/
def modeStr : CameraMode → String
  | CameraMode.photo => "photo"
  | CameraMode.video => "video"

/-- `type === 'photo' ? 'jpg' : 'webm'`: the filename extension. -/
def modeExt : CameraMode → String
  | CameraMode.photo => "jpg"
  | CameraMode.video => "webm"

/-- The filename built by `createMediaFromBlob`: the mode, the sliced ISO form
of the capture timestamp with colons and dots replaced by dashes, and the
extension. -/
def mediaFilename (ty : CameraMode) (timestamp : Nat) : String :=
  modeStr ty ++ "_" ++ replaceColonDot (toISOSliced timestamp) ++ "." ++ modeExt ty

/-- `createMediaFromBlob(blob, type)`: builds the id from the mode, the first
`Date.now()` reading `tId` and the random suffix `rand`; wraps
`URL.createObjectURL(blob)` in `try`/`catch`, falling back to the empty string
(`urlResult = none` models the throw); takes a second `Date.now()` reading
`tCap` as the timestamp and derives the filename from it.  The function is
total: it never raises. -/
def createMediaFromBlob (blob : MediaBlob) (ty : CameraMode) (tId tCap : Nat)
    (urlResult : Option String) (rand : String) : CapturedMedia :=
  let id := modeStr ty ++ "_" ++ toString tId ++ "_" ++ rand
  let url := match urlResult with
    | some u => u
    | none => ""
  { id := id, type := ty, url := url, blob := blob, timestamp := tCap,
    filename := mediaFilename ty tCap }

/-- A bounding box as parsed from the Gemini JSON response; `none` marks a
field that is absent or whose value is not a number (`typeof` check). -/
structure RawBoundingBox where
  ymin : Option ℚ
  xmin : Option ℚ
  ymax : Option ℚ
  xmax : Option ℚ
deriving DecidableEq, Repr

/-- One entry of `detectionResult.fruits` as parsed from JSON, before
validation. -/
structure RawFruit where
  name : Option String
  confidence : Option ℚ
  boundingBox : Option RawBoundingBox
deriving DecidableEq, Repr

/-- The per-entry validation predicate inside `detectFruits`: `fruit.name`
truthy, `fruit.confidence` a number between 0 and 1, `fruit.boundingBox`
present with `ymin`, `xmin`, `ymax`, `xmax` all numbers.  The coordinates are
only type-checked, not range-checked. -/
def fruitValid (f : RawFruit) : Bool :=
  (match f.name with
    | some s => !(s == "")
    | none => false) &&
  (match f.confidence with
    | some c => decide (0 ≤ c) && decide (c ≤ 1)
    | none => false) &&
  (match f.boundingBox with
    | some b => b.ymin.isSome && b.xmin.isSome && b.ymax.isSome && b.xmax.isSome
    | none => false)

/-- `detectionResult.fruits = detectionResult.fruits.filter(fruit => ...)`:
the array returned by `detectFruits` on the success path. -/
def detectFruitsFilter (fruits : List RawFruit) : List RawFruit :=
  fruits.filter fruitValid

/-! ### Concrete fixtures used by witnesses and counterexamples -/

/-- A concrete photo handle, as produced at capture time. -/
def sampleMedia : CapturedMedia :=
  { id := "photo_100_x", type := CameraMode.photo, url := "blob:photo_100_x",
    blob := ⟨[7, 7]⟩, timestamp := 100, filename := "photo_a.jpg" }

/-- A concrete hook state holding `sampleMedia` only. -/
def sampleState : ManagerState :=
  { capturedMedia := [sampleMedia], isCapturing := false, isLoading := false }

/-- A concrete object-URL allocator for restored records. -/
def wUrl : StoredMediaData → String := fun s => "blob:" ++ s.id

/-- A concrete stored photo record. -/
def wStoredA : StoredMediaData :=
  { id := "photo_100_x", type := CameraMode.photo, blob := ⟨[7, 7]⟩,
    timestamp := 100, filename := "photo_a.jpg" }

/-- A concrete stored video record, newer than `wStoredA`. -/
def wStoredB : StoredMediaData :=
  { id := "video_200_y", type := CameraMode.video, blob := ⟨[9]⟩,
    timestamp := 200, filename := "video_b.webm" }

/-- `a` occurs strictly before `b` in the trace. -/
def occursBefore (a b : AddEvent) (trace : List AddEvent) : Prop :=
  trace.indexOf a < trace.indexOf b

instance (a b : AddEvent) (trace : List AddEvent) : Decidable (occursBefore a b trace) :=
  inferInstanceAs (Decidable (trace.indexOf a < trace.indexOf b))

/-! ### Claims -/

/-- Claim C1, as stated, is false on the code: in `addMedia` the prepend of
the record to the collection is NOT emitted before the store `put` settles.
At a concrete input the trace of `addMedia` places the prepend strictly after
the settlement of the put — the code awaits `mediaDatabase.storeMedia` and
only then calls `setCapturedMedia`. -/
theorem addMedia_optimistic_counterexample :
    ¬ occursBefore AddEvent.prepended (AddEvent.putSettled true)
      (addMedia true sampleMedia initialState []).2.2 := by
  decide

/-- Claim C1 amended: `addMedia(record)` makes the record visible at index 0
of the collection only AFTER the persistence operation settles: the event
trace is put issued, put settled (with the actual outcome), then prepend, and
the resulting collection has the record (with `indexedDbId` set on success) at
index 0. -/
theorem addMedia_prepend_after_put_settles (putOk : Bool) (m : CapturedMedia)
    (st : ManagerState) (store : MediaStore) :
    occursBefore (AddEvent.putSettled putOk) AddEvent.prepended
      (addMedia putOk m st store).2.2 ∧
    (addMedia putOk m st store).1.capturedMedia =
      (if putOk then { m with indexedDbId := some m.id } else m) :: st.capturedMedia := by
  cases putOk
  · refine ⟨?_, by simp [addMedia]⟩
    show occursBefore (AddEvent.putSettled false) AddEvent.prepended
      [AddEvent.putStarted, AddEvent.putSettled false, AddEvent.prepended]
    decide
  · refine ⟨?_, by simp [addMedia, storeMedia, putStore]⟩
    show occursBefore (AddEvent.putSettled true) AddEvent.prepended
      [AddEvent.putStarted, AddEvent.putSettled true, AddEvent.prepended]
    decide

/-- Claim C3: when the store read behind `restoreOnInit` fails, the caught
failure leaves the collection empty, still clears the `isLoading` flag, and is
not propagated (`loadPersistedMedia` is total on the error outcome). -/
theorem loadPersistedMedia_failure (mkUrl : StoredMediaData → String) (e : String) :
    loadPersistedMedia mkUrl (Except.error e) initialState =
      { capturedMedia := [], isCapturing := false, isLoading := false } := rfl

/-- Claim C6: after `clearAllMedia`, whatever the outcome of the store
`clear()`, the collection is empty and every `blob:` object URL of the prior
collection is among the revoked references; a failed `clear()` is swallowed
(the function is total) and leaves the store untouched without preventing the
in-memory clear. -/
theorem clearAllMedia_clears (clearOk : Bool) (st : ManagerState) (store : MediaStore) :
    (clearAllMedia clearOk st store).1.capturedMedia = [] ∧
    (clearAllMedia clearOk st store).2.2 =
      (st.capturedMedia.filter (fun m => isBlobUrl m.url)).map (fun m => m.url) ∧
    (∀ m ∈ st.capturedMedia, isBlobUrl m.url = true →
      m.url ∈ (clearAllMedia clearOk st store).2.2) ∧
    (clearAllMedia false st store).2.1 = store := by
  refine ⟨rfl, rfl, ?_, rfl⟩
  intro m hm hurl
  show m.url ∈ (st.capturedMedia.filter (fun m => isBlobUrl m.url)).map (fun m => m.url)
  have h1 : m ∈ st.capturedMedia.filter (fun x => isBlobUrl x.url) :=
    List.mem_filter.mpr ⟨hm, hurl⟩
  exact List.mem_map_of_mem (fun x => x.url) h1

/-- Witness for C6 at a concrete state and a failing store `clear()`. -/
theorem clearAllMedia_clears_witness :
    (clearAllMedia false sampleState [wStoredA]).1.capturedMedia = [] ∧
    (clearAllMedia false sampleState [wStoredA]).2.2 =
      (sampleState.capturedMedia.filter (fun m => isBlobUrl m.url)).map (fun m => m.url) ∧
    (∀ m ∈ sampleState.capturedMedia, isBlobUrl m.url = true →
      m.url ∈ (clearAllMedia false sampleState [wStoredA]).2.2) ∧
    (clearAllMedia false sampleState [wStoredA]).2.1 = [wStoredA] :=
  clearAllMedia_clears false sampleState [wStoredA]

/-- Claim C8: `createMediaFromBlob` never raises (it is a total function of
the capture inputs and the object-URL outcome); when object-URL creation fails
the returned record carries the empty placeholder reference; and the filename
is a deterministic function of the kind and the capture timestamp alone, with
extension `jpg` for photos and `webm` for videos. -/
theorem createMediaFromBlob_failSoft (b b' : MediaBlob) (ty : CameraMode)
    (tId tId' tCap : Nat) (uRes uRes' : Option String) (rand rand' : String) :
    (createMediaFromBlob b ty tId tCap none rand).url = "" ∧
    (createMediaFromBlob b ty tId tCap uRes rand).filename =
      (createMediaFromBlob b' ty tId' tCap uRes' rand').filename ∧
    (createMediaFromBlob b ty tId tCap uRes rand).filename = mediaFilename ty tCap ∧
    modeExt CameraMode.photo = "jpg" ∧ modeExt CameraMode.video = "webm" :=
  ⟨rfl, rfl, rfl, rfl, rfl⟩

/-- Rehydration preserves the sort key: the timestamps of the mapped handles
are the timestamps of the stored records. -/
theorem restore_timestamps (mkUrl : StoredMediaData → String)
    (stored : List StoredMediaData) :
    (stored.map (restoreHandle mkUrl)).map (fun c => c.timestamp) =
      stored.map (fun s => s.timestamp) := by
  rw [List.map_map]
  rfl

/-- Claim C2: for any stored records with pairwise-distinct `capturedAt`
timestamps, read back in arbitrary order, the restored collection is sorted
strictly descending by timestamp (newest first). -/
theorem restoreOnInit_sorted (mkUrl : StoredMediaData → String)
    (stored : List StoredMediaData)
    (hnd : (stored.map (fun s => s.timestamp)).Nodup) :
    ((loadPersistedMedia mkUrl (Except.ok stored) initialState).capturedMedia).Pairwise
      (fun a b => b.timestamp < a.timestamp) := by
  by_cases hlen : stored.length > 0
  · have hcoll : (loadPersistedMedia mkUrl (Except.ok stored) initialState).capturedMedia =
        List.insertionSort newestFirst (stored.map (restoreHandle mkUrl)) := by
      simp [loadPersistedMedia, hlen]
    rw [hcoll]
    have hsorted : List.Sorted newestFirst
        (List.insertionSort newestFirst (stored.map (restoreHandle mkUrl))) :=
      List.sorted_insertionSort newestFirst (stored.map (restoreHandle mkUrl))
    have hperm : List.Perm (List.insertionSort newestFirst (stored.map (restoreHandle mkUrl)))
        (stored.map (restoreHandle mkUrl)) :=
      List.perm_insertionSort newestFirst (stored.map (restoreHandle mkUrl))
    have hnd' : ((List.insertionSort newestFirst
        (stored.map (restoreHandle mkUrl))).map (fun c => c.timestamp)).Nodup := by
      refine ((hperm.map (fun c => c.timestamp)).symm).nodup ?_
      rw [restore_timestamps]
      exact hnd
    have hne : (List.insertionSort newestFirst
        (stored.map (restoreHandle mkUrl))).Pairwise
        (fun a b => a.timestamp ≠ b.timestamp) := List.pairwise_map.mp hnd'
    exact (hsorted.and hne).imp (fun h => lt_of_le_of_ne h.1 (Ne.symm h.2))
  · have : stored = [] := List.length_eq_zero.mp (Nat.eq_zero_of_not_pos hlen)
    subst this
    simp [loadPersistedMedia, initialState]

/-- Witness for C2: two records inserted oldest-first come back newest-first
and strictly descending. -/
theorem restoreOnInit_sorted_witness :
    (([wStoredA, wStoredB].map (fun s => s.timestamp)).Nodup) ∧
    ((loadPersistedMedia wUrl (Except.ok [wStoredA, wStoredB])
        initialState).capturedMedia).Pairwise
      (fun a b => b.timestamp < a.timestamp) :=
  ⟨by decide, restoreOnInit_sorted wUrl [wStoredA, wStoredB] (by decide)⟩

/-- Every handle produced by a successful restore carries the id of one of the
stored records. -/
theorem mem_restore_id (mkUrl : StoredMediaData → String)
    (stored : List StoredMediaData) (c : CapturedMedia)
    (hc : c ∈ (loadPersistedMedia mkUrl (Except.ok stored) initialState).capturedMedia) :
    ∃ e ∈ stored, c.id = e.id := by
  by_cases hlen : stored.length > 0
  · have hcoll : (loadPersistedMedia mkUrl (Except.ok stored) initialState).capturedMedia =
        List.insertionSort newestFirst (stored.map (restoreHandle mkUrl)) := by
      simp [loadPersistedMedia, hlen]
    rw [hcoll] at hc
    have hmem : c ∈ stored.map (restoreHandle mkUrl) :=
      (List.perm_insertionSort newestFirst (stored.map (restoreHandle mkUrl))).mem_iff.mp hc
    rcases List.mem_map.mp hmem with ⟨e, he, hce⟩
    exact ⟨e, he, by rw [← hce]; rfl⟩
  · have : stored = [] := List.length_eq_zero.mp (Nat.eq_zero_of_not_pos hlen)
    subst this
    simp [loadPersistedMedia, initialState] at hc

/-- Claim C4: when the store `put` inside `addMedia` fails, the record is
still prepended to the collection, the failure is swallowed (`addMedia` is
total), the store is untouched, and a record never durably mirrored does not
reappear from a subsequent restore. -/
theorem addMedia_putFailure_memoryOnly (m : CapturedMedia) (st : ManagerState)
    (store : MediaStore) (mkUrl : StoredMediaData → String)
    (hfresh : ∀ e ∈ store, e.id ≠ m.id) :
    (addMedia false m st store).1.capturedMedia = m :: st.capturedMedia ∧
    (addMedia false m st store).2.1 = store ∧
    ∀ c ∈ (loadPersistedMedia mkUrl (Except.ok (addMedia false m st store).2.1)
        initialState).capturedMedia, c.id ≠ m.id := by
  refine ⟨by simp [addMedia], rfl, ?_⟩
  intro c hc
  have hc' : c ∈ (loadPersistedMedia mkUrl (Except.ok store) initialState).capturedMedia := hc
  rcases mem_restore_id mkUrl store c hc' with ⟨e, he, hce⟩
  rw [hce]
  exact hfresh e he

/-- Witness for C4 at a concrete record, an empty store and a failing put. -/
theorem addMedia_putFailure_memoryOnly_witness :
    (∀ e ∈ ([] : MediaStore), e.id ≠ sampleMedia.id) ∧
    ((addMedia false sampleMedia initialState []).1.capturedMedia =
        sampleMedia :: initialState.capturedMedia ∧
      (addMedia false sampleMedia initialState []).2.1 = [] ∧
      ∀ c ∈ (loadPersistedMedia wUrl
          (Except.ok (addMedia false sampleMedia initialState []).2.1)
          initialState).capturedMedia, c.id ≠ sampleMedia.id) :=
  ⟨by simp, addMedia_putFailure_memoryOnly sampleMedia initialState [] wUrl (by simp)⟩

/-- With unique ids (the store/collection invariant), `find?` on the id
predicate locates exactly the member carrying that id. -/
theorem find_by_id_of_nodup {l : List CapturedMedia} {m : CapturedMedia} {id : String}
    (hmem : m ∈ l) (hid : m.id = id)
    (hnd : (l.map (fun x => x.id)).Nodup) :
    l.find? (fun x => x.id == id) = some m := by
  induction l with
  | nil => cases hmem
  | cons a t ih =>
    rw [List.map_cons, List.nodup_cons] at hnd
    rcases List.mem_cons.mp hmem with rfl | hmt
    · exact List.find?_cons_of_pos t (by simp [hid])
    · have ha : ¬ ((a.id == id) = true) := by
        intro hbeq
        have haid : a.id = id := by simpa using hbeq
        refine hnd.1 ?_
        rw [haid, ← hid]
        exact List.mem_map_of_mem (fun x => x.id) hmt
      rw [List.find?_cons_of_neg t ha]
      exact ih hmt hnd.2

/-- Claim C5: for an id present in the collection (ids unique, the element's
reference being a live `blob:` object URL), `removeMedia(id)` revokes exactly
that object URL exactly once and leaves no element with that id in the
collection. -/
theorem removeMedia_releases_once (id : String) (st : ManagerState)
    (m : CapturedMedia) (hmem : m ∈ st.capturedMedia) (hid : m.id = id)
    (hnd : (st.capturedMedia.map (fun x => x.id)).Nodup)
    (hblob : isBlobUrl m.url = true) :
    (removeMedia id st).2.1 = [m.url] ∧
    (removeMedia id st).2.1.count m.url = 1 ∧
    ∀ x ∈ (removeMedia id st).1.capturedMedia, x.id ≠ id := by
  have hfind := find_by_id_of_nodup hmem hid hnd
  refine ⟨?_, ?_, ?_⟩
  · simp [removeMedia, hfind, hblob]
  · simp [removeMedia, hfind, hblob]
  · intro x hx
    have hx' : x ∈ st.capturedMedia.filter (fun y => y.id != id) := by
      simpa [removeMedia, hfind] using hx
    have := (List.mem_filter.mp hx').2
    simpa using this

/-- Witness for C5 at the singleton collection holding `sampleMedia`. -/
theorem removeMedia_releases_once_witness :
    (sampleMedia ∈ sampleState.capturedMedia ∧
      (sampleState.capturedMedia.map (fun x => x.id)).Nodup) ∧
    ((removeMedia "photo_100_x" sampleState).2.1 = [sampleMedia.url] ∧
      (removeMedia "photo_100_x" sampleState).2.1.count sampleMedia.url = 1 ∧
      ∀ x ∈ (removeMedia "photo_100_x" sampleState).1.capturedMedia,
        x.id ≠ "photo_100_x") :=
  ⟨⟨by decide, by decide⟩,
    removeMedia_releases_once "photo_100_x" sampleState sampleMedia
      (by decide) (by decide) (by decide) (by decide)⟩

/-- Claim C10: for an id absent from the collection, `removeMedia(id)` leaves
the state unchanged, revokes no object URL and issues no store delete. -/
theorem removeMedia_absent_noop (id : String) (st : ManagerState)
    (habs : ∀ x ∈ st.capturedMedia, x.id ≠ id) :
    removeMedia id st = (st, [], []) := by
  have hfind : st.capturedMedia.find? (fun x => x.id == id) = none := by
    rw [List.find?_eq_none]
    intro x hx
    simpa using habs x hx
  have hfilter : st.capturedMedia.filter (fun x => x.id != id) = st.capturedMedia := by
    rw [List.filter_eq_self]
    intro x hx
    simpa using habs x hx
  simp [removeMedia, hfind, hfilter]

/-- Witness for C10: removing a missing id from the singleton state is a
no-op with no revocation and no delete request. -/
theorem removeMedia_absent_noop_witness :
    (∀ x ∈ sampleState.capturedMedia, x.id ≠ "missing") ∧
    removeMedia "missing" sampleState = (sampleState, [], []) :=
  ⟨by decide, removeMedia_absent_noop "missing" sampleState (by decide)⟩

/-- After any `put` of `r`, the store holds an entry with `r.id`. -/
theorem putStore_any (s : MediaStore) (r : StoredMediaData) :
    (putStore s r).any (fun e => e.id == r.id) = true := by
  unfold putStore
  split
  case isTrue h =>
    rcases List.any_eq_true.mp h with ⟨e, he, hbe⟩
    refine List.any_eq_true.mpr ⟨r, ?_, by simp⟩
    exact List.mem_map.mpr ⟨e, he, by simp [hbe]⟩
  case isFalse h =>
    exact List.any_eq_true.mpr ⟨r, by simp, by simp⟩

/-- When an entry with `r.id` already exists, `put r` takes the replace branch
and keeps the number of entries with that id unchanged. -/
theorem putStore_countP_stable (s : MediaStore) (r : StoredMediaData)
    (h : s.any (fun e => e.id == r.id) = true) :
    (putStore s r).countP (fun e => e.id == r.id) =
      s.countP (fun e => e.id == r.id) := by
  unfold putStore
  rw [if_pos h, List.countP_map]
  refine List.countP_congr ?_
  intro e _
  by_cases hbe : (e.id == r.id) = true
  · simp [Function.comp, hbe]
  · simp [Function.comp, hbe]

/-- When no entry with `r.id` exists, `put r` appends and the number of
entries with that id grows by one. -/
theorem putStore_countP_fresh (s : MediaStore) (r : StoredMediaData)
    (h : ¬ (s.any (fun e => e.id == r.id) = true)) :
    (putStore s r).countP (fun e => e.id == r.id) =
      s.countP (fun e => e.id == r.id) + 1 := by
  unfold putStore
  rw [if_neg h, List.countP_append]
  simp

/-- With unique ids, a store known to hold an entry with the id holds exactly
one such entry. -/
theorem countP_id_of_nodup (s : MediaStore) (x : String)
    (hnd : (s.map (fun e => e.id)).Nodup)
    (hany : s.any (fun e => e.id == x) = true) :
    s.countP (fun e => e.id == x) = 1 := by
  induction s with
  | nil => simp at hany
  | cons a t ih =>
    rw [List.map_cons, List.nodup_cons] at hnd
    by_cases ha : (a.id == x) = true
    · have hax : a.id = x := by simpa using ha
      have ht : t.countP (fun e => e.id == x) = 0 := by
        rw [List.countP_eq_zero]
        intro e he hbe
        have hex : e.id = x := by simpa using hbe
        refine hnd.1 ?_
        rw [hax, ← hex]
        exact List.mem_map_of_mem (fun e => e.id) he
      simp [List.countP_cons, ha, ht]
    · have hat : t.any (fun e => e.id == x) = true := by
        rcases List.any_eq_true.mp hany with ⟨e, he, hbe⟩
        rcases List.mem_cons.mp he with rfl | het
        · exact absurd hbe ha
        · exact List.any_eq_true.mpr ⟨e, het, hbe⟩
      simp [List.countP_cons, ha, ih hnd.2 hat]

/-- Claim C7: the store `put` is idempotent by key — with unique ids in the
store, putting the same record twice leaves exactly one entry carrying its
id (upsert, last write wins). -/
theorem putStore_put_twice_one_entry (s : MediaStore) (r : StoredMediaData)
    (hnd : (s.map (fun e => e.id)).Nodup) :
    (putStore (putStore s r) r).countP (fun e => e.id == r.id) = 1 := by
  rw [putStore_countP_stable (putStore s r) r (putStore_any s r)]
  by_cases h : s.any (fun e => e.id == r.id) = true
  · rw [putStore_countP_stable s r h]
    exact countP_id_of_nodup s r.id hnd h
  · rw [putStore_countP_fresh s r h]
    have hz : s.countP (fun e => e.id == r.id) = 0 := by
      rw [List.countP_eq_zero]
      intro e he hbe
      exact h (List.any_eq_true.mpr ⟨e, he, hbe⟩)
    rw [hz]

/-- Witness for C7: putting `wStoredA` twice into a store already holding it
leaves exactly one entry with its id. -/
theorem putStore_put_twice_one_entry_witness :
    (([wStoredA, wStoredB].map (fun e => e.id)).Nodup) ∧
    (putStore (putStore [wStoredA, wStoredB] wStoredA) wStoredA).countP
      (fun e => e.id == wStoredA.id) = 1 :=
  ⟨by decide, putStore_put_twice_one_entry [wStoredA, wStoredB] wStoredA (by decide)⟩

/-- A fruit entry that satisfies every check in the code's filter while its
bounding box reaches outside the unit interval. -/
def badFruit : RawFruit :=
  { name := some "apple", confidence := some 1,
    boundingBox := some { ymin := some 2, xmin := some 0, ymax := some 1, xmax := some 1 } }

/-- A fruit entry whose coordinates all lie inside the unit interval. -/
def goodFruit : RawFruit :=
  { name := some "banana", confidence := some 1,
    boundingBox := some { ymin := some 0, xmin := some 0, ymax := some 1, xmax := some 1 } }

/-- Claim C9, as stated, is false on the code: the filter in `detectFruits`
checks only that the bounding-box fields are numbers, never that they lie in
the interval from 0 to 1, so an entry with `ymin = 2` is returned. -/
theorem detectFruits_no_range_check_counterexample :
    badFruit ∈ detectFruitsFilter [badFruit] ∧
    ∃ bb, badFruit.boundingBox = some bb ∧ ∃ y, bb.ymin = some y ∧ ¬ (y ≤ 1) := by
  refine ⟨by decide, ⟨_, rfl, 2, rfl, by norm_num⟩⟩

/-- Claim C9 amended: every fruit entry returned by the `detectFruits` filter
has a truthy (non-empty) name, a numeric confidence inside the interval from
0 to 1, and a bounding box whose `ymin`, `xmin`, `ymax`, `xmax` are all
present as numbers; the coordinates themselves are not range-checked. -/
theorem detectFruits_validated (fruits : List RawFruit) (f : RawFruit)
    (hf : f ∈ detectFruitsFilter fruits) :
    (∃ s, f.name = some s ∧ s ≠ "") ∧
    (∃ c, f.confidence = some c ∧ 0 ≤ c ∧ c ≤ 1) ∧
    (∃ bb, f.boundingBox = some bb ∧
      bb.ymin.isSome = true ∧ bb.xmin.isSome = true ∧
      bb.ymax.isSome = true ∧ bb.xmax.isSome = true) := by
  have hv : fruitValid f = true := (List.mem_filter.mp hf).2
  rcases hn : f.name with _ | s
  · rw [fruitValid, hn] at hv
    simp at hv
  · rcases hc : f.confidence with _ | c
    · rw [fruitValid, hn, hc] at hv
      simp at hv
    · rcases hb : f.boundingBox with _ | bb
      · rw [fruitValid, hn, hc, hb] at hv
        simp at hv
      · rw [fruitValid, hn, hc, hb] at hv
        simp only [Bool.and_eq_true, Bool.not_eq_true', beq_eq_false_iff_ne,
          decide_eq_true_eq] at hv
        obtain ⟨⟨hs, hc0, hc1⟩, ⟨⟨hy, hx⟩, hy2⟩, hx2⟩ := hv
        exact ⟨⟨s, rfl, hs⟩, ⟨c, rfl, hc0, hc1⟩, ⟨bb, rfl, hy, hx, hy2, hx2⟩⟩

/-- Witness for the amended C9 at a concrete well-formed fruit entry. -/
theorem detectFruits_validated_witness :
    goodFruit ∈ detectFruitsFilter [goodFruit] ∧
    ((∃ s, goodFruit.name = some s ∧ s ≠ "") ∧
      (∃ c, goodFruit.confidence = some c ∧ 0 ≤ c ∧ c ≤ 1) ∧
      (∃ bb, goodFruit.boundingBox = some bb ∧
        bb.ymin.isSome = true ∧ bb.xmin.isSome = true ∧
        bb.ymax.isSome = true ∧ bb.xmax.isSome = true)) :=
  ⟨by decide, detectFruits_validated [goodFruit] goodFruit (by decide)⟩
